import Mathlib

set_option maxRecDepth 10000

/-!
Shallow embedding of the Rust concurrency example snippets in
`src/src/main.rs`, `src/shared_ownership/main.rs` and
`src/sync_consent/main.rs`, together with models of the standard
library primitives exactly as the repository itself documents them
(join handles, thread builders, scoped threads, reference counting,
interior mutability containers, locks and atomics).
-/

namespace RustConc

/-! ## Threads and join handles

A spawned closure either returns a value or panics with a message.
This mirrors the comment at `src/src/main.rs` line 30:
`Join returns a Result: Err if the thread panicked / Ok otherwise`. -/

/-- The body of a thread: a closure that either returns normally with a
value or panics with a message. -/
inductive Comp (α : Type) where
  | ret (a : α)
  | panicked (msg : String)
deriving DecidableEq, Repr

/-- A join handle for a spawned thread, holding the outcome of its body. -/
structure JoinHandle (α : Type) where
  body : Comp α
deriving DecidableEq, Repr

/-- Model of `thread::spawn`: starts the closure and hands back its handle. -/
def spawn {α : Type} (c : Comp α) : JoinHandle α := ⟨c⟩

/-- Model of `JoinHandle::join`: waits for the thread and reports `Err`
with the panic payload if the closure panicked, `Ok` with the returned
value otherwise. -/
def JoinHandle.join {α : Type} (h : JoinHandle α) : Except String α :=
  match h.body with
  | Comp.ret a => Except.ok a
  | Comp.panicked m => Except.error m

/-- Whether a closure panics when run. -/
def Comp.panics {α : Type} : Comp α → Bool
  | Comp.ret _ => false
  | Comp.panicked _ => true

/-- The thread body of the third example in `src/src/main.rs`
(lines 39 to 42): a closure that immediately panics. -/
def panickingExampleBody : Comp Unit := Comp.panicked "Oops - panicked again"

/-- The thread body `f` of the join-handle example in `src/src/main.rs`
(lines 13 to 18): prints two lines and returns unit. -/
def fBody : Comp Unit := Comp.ret ()

/-! ## Interior mutability containers and locks

`src/shared_ownership/main.rs` documents two runtime disciplines:
`RefCell` at lines 82 to 87 (`panics if it cant get the borrow`) and
`RwLock` / `Mutex` at lines 96 to 120 (`blocks/sleeps instead of calling
panic if it cant get a borrow`).  A single result type covers both, so
the difference between the two disciplines is a provable fact rather
than a typing artifact. -/

/-- Outcome of requesting access to a guarded value: the request is
granted with an updated guard state, or the caller blocks until the
value becomes available, or the call panics. -/
inductive AcqRes (σ : Type) where
  | granted (s : σ)
  | blocked
  | panicked
deriving DecidableEq, Repr

/-- Borrow state of a `RefCell`: no borrow, some number of shared
borrows, or one exclusive (mutable) borrow. -/
inductive BorrowState where
  | free
  | shared (n : Nat)
  | exclusive
deriving DecidableEq, Repr

/-- Model of `RefCell::borrow`: a shared borrow is granted unless a
mutable borrow exists, in which case the call panics (it never blocks:
`RefCell` is single threaded). -/
def refcellBorrow : BorrowState → AcqRes BorrowState
  | BorrowState.free => AcqRes.granted (BorrowState.shared 1)
  | BorrowState.shared n => AcqRes.granted (BorrowState.shared (n + 1))
  | BorrowState.exclusive => AcqRes.panicked

/-- Model of `RefCell::borrow_mut`: the exclusive borrow is granted only
when no borrow exists at all; any coexisting borrow makes the call
panic. -/
def refcellBorrowMut : BorrowState → AcqRes BorrowState
  | BorrowState.free => AcqRes.granted BorrowState.exclusive
  | BorrowState.shared _ => AcqRes.panicked
  | BorrowState.exclusive => AcqRes.panicked

/-- Lock state of an `RwLock`: unlocked, read locked by some number of
readers, or write locked. -/
inductive RwState where
  | unlocked
  | readLocked (n : Nat)
  | writeLocked
deriving DecidableEq, Repr

/-- Model of `RwLock::read`: granted while no writer holds the lock;
when a writer holds it, the caller blocks (never panics). -/
def rwlockRead : RwState → AcqRes RwState
  | RwState.unlocked => AcqRes.granted (RwState.readLocked 1)
  | RwState.readLocked n => AcqRes.granted (RwState.readLocked (n + 1))
  | RwState.writeLocked => AcqRes.blocked

/-- Model of `RwLock::write`: granted only when the lock is free;
otherwise the caller blocks (never panics). -/
def rwlockWrite : RwState → AcqRes RwState
  | RwState.unlocked => AcqRes.granted RwState.writeLocked
  | RwState.readLocked _ => AcqRes.blocked
  | RwState.writeLocked => AcqRes.blocked

/-- Releasing one read guard of an `RwLock`. -/
def rwlockReleaseRead : RwState → RwState
  | RwState.readLocked 1 => RwState.unlocked
  | RwState.readLocked (n + 2) => RwState.readLocked (n + 1)
  | s => s

/-- Model of `Mutex::lock` over the held flag: granted when free,
blocking when already held (never panicking). -/
def mutexLock : Bool → AcqRes Bool
  | false => AcqRes.granted true
  | true => AcqRes.blocked

/-- Releasing the mutex guard. -/
def mutexUnlock : Bool → Bool := fun _ => false

/-! ## The RwLock example (`src/shared_ownership/main.rs` lines 104 to 115)

The example reads the lock, prints, drops the read guard, takes the
write guard, adds 5, and then reads again inside the final `println`.
The write guard `w` is a named binding that the source never drops, so
it is still held at the final read. -/

/-- Result of running one of the example `main` functions: either it
finishes with its printed lines and a final protected value, or it
blocks forever after printing some lines. -/
inductive RunResult where
  | finished (out : List String) (final : Nat)
  | stuck (out : List String)
deriving DecidableEq, Repr

/-- Shallow embedding of the `RwLock` example `main`: each lock
operation steps the `RwState` exactly as the source orders them, with
no release of the write guard before the final read because the source
contains none. -/
def rwlockExampleMain : RunResult :=
  let v0 : Nat := 10
  match rwlockRead RwState.unlocked with
  | AcqRes.granted st1 =>
    let out1 := ["Read: " ++ toString v0]
    let st2 := rwlockReleaseRead st1
    match rwlockWrite st2 with
    | AcqRes.granted st3 =>
      let v1 := v0 + 5
      match rwlockRead st3 with
      | AcqRes.granted _ => RunResult.finished (out1 ++ ["Final: " ++ toString v1]) v1
      | _ => RunResult.stuck out1
    | _ => RunResult.stuck out1
  | _ => RunResult.stuck []

/-- The variant of the example that the surrounding prose describes,
with the write guard released before the final read (the source would
need a `drop(w)` it does not have).  Used only to compare intent with
the embedded code. -/
def rwlockExampleMainGuardDropped : RunResult :=
  let v0 : Nat := 10
  match rwlockRead RwState.unlocked with
  | AcqRes.granted st1 =>
    let out1 := ["Read: " ++ toString v0]
    let st2 := rwlockReleaseRead st1
    match rwlockWrite st2 with
    | AcqRes.granted _ =>
      let v1 := v0 + 5
      let st4 := RwState.unlocked
      match rwlockRead st4 with
      | AcqRes.granted _ => RunResult.finished (out1 ++ ["Final: " ++ toString v1]) v1
      | _ => RunResult.stuck out1
    | _ => RunResult.stuck out1
  | _ => RunResult.stuck []

/-! ## The Mutex counter and the atomic counter
(`src/shared_ownership/main.rs` lines 125 to 132 and 142 to 149) -/

/-- One statement `*counter.lock().unwrap() += k`: the temporary guard
is acquired, the value updated, and the guard released at the end of
the statement. -/
def mutexLockedAdd (held : Bool) (v k : Nat) : AcqRes (Bool × Nat) :=
  match mutexLock held with
  | AcqRes.granted h => AcqRes.granted (mutexUnlock h, v + k)
  | AcqRes.blocked => AcqRes.blocked
  | AcqRes.panicked => AcqRes.panicked

/-- Shallow embedding of the `Mutex` counter `main`: two locked
increments of 1 starting from 0, then a locked read that is printed. -/
def mutexCounterMain : RunResult :=
  match mutexLockedAdd false 0 1 with
  | AcqRes.granted (h1, v1) =>
    match mutexLockedAdd h1 v1 1 with
    | AcqRes.granted (h2, v2) =>
      match mutexLock h2 with
      | AcqRes.granted _ => RunResult.finished [toString v2] v2
      | _ => RunResult.stuck []
    | _ => RunResult.stuck []
  | _ => RunResult.stuck []

/-- Model of `AtomicUsize::fetch_add`: returns the previous value and
the updated cell. -/
def fetchAdd (v k : Nat) : Nat × Nat := (v, v + k)

/-- Model of `AtomicUsize::load`. -/
def atomicLoad (v : Nat) : Nat := v

/-- Shallow embedding of the `AtomicUsize` counter `main`: two
`fetch_add(1)` calls starting from 0, then a load that is printed. -/
def atomicCounterMain : RunResult :=
  let c0 : Nat := 0
  let c1 := (fetchAdd c0 1).2
  let c2 := (fetchAdd c1 1).2
  RunResult.finished ["Counter: " ++ toString (atomicLoad c2)] (atomicLoad c2)

/-! ## Scoped threads (`src/src/main.rs` lines 62 to 76)

The comment at line 75 states: `This way, all spawned threads are
joined`.  The model is a small transition system: tasks spawned inside
the scope complete in any order, and the scope can only return once no
task is pending.  The trace records completions and the scope return,
so completion-before-return is a theorem about every reachable run. -/

/-- An event in a run of `thread::scope`: a spawned task completed, or
the scope call returned to the caller. -/
inductive SEvent where
  | completed (t : Nat)
  | scopeReturn
deriving DecidableEq, Repr

/-- State of one `thread::scope` call: the spawned tasks still running,
whether the call has returned, and the event trace so far. -/
structure ScState where
  pending : List Nat
  returned : Bool
  trace : List SEvent
deriving DecidableEq, Repr

/-- Initial state of a scope with the given spawned tasks. -/
def scInit (tasks : List Nat) : ScState := ⟨tasks, false, []⟩

/-- One step of a scope run: either some still-pending task finishes
(in any order the scheduler likes), or the scope returns, which is only
enabled once every spawned task has completed. -/
inductive ScStep : ScState → ScState → Prop
  | finishTask (s : ScState) (t : Nat) (ht : t ∈ s.pending)
      (hr : s.returned = false) :
      ScStep s ⟨s.pending.erase t, false, s.trace ++ [SEvent.completed t]⟩
  | scopeDone (s : ScState) (hp : s.pending = []) (hr : s.returned = false) :
      ScStep s ⟨[], true, s.trace ++ [SEvent.scopeReturn]⟩

/-- Reachability in the scope transition system. -/
def ScReaches : ScState → ScState → Prop := Relation.ReflTransGen ScStep

/-- Invariant of scope runs: every spawned task is still pending or has
its completion in the trace; once returned, the trace ends with the
scope return and every completion precedes it; before returning, no
return event is in the trace. -/
def ScInv (tasks : List Nat) (s : ScState) : Prop :=
  (∀ t ∈ tasks, t ∈ s.pending ∨ SEvent.completed t ∈ s.trace)
  ∧ (s.returned = true →
      ∃ tr, s.trace = tr ++ [SEvent.scopeReturn] ∧
        ∀ t ∈ tasks, SEvent.completed t ∈ tr)
  ∧ (s.returned = false → SEvent.scopeReturn ∉ s.trace)

lemma scInv_init (tasks : List Nat) : ScInv tasks (scInit tasks) := by
  refine ⟨fun t ht => Or.inl ht, ?_, ?_⟩
  · intro h; simp [scInit] at h
  · intro _; simp [scInit]

lemma scInv_step {tasks : List Nat} {s s' : ScState}
    (hinv : ScInv tasks s) (hstep : ScStep s s') : ScInv tasks s' := by
  obtain ⟨h1, h2, h3⟩ := hinv
  cases hstep with
  | finishTask t ht hr =>
    refine ⟨?_, ?_, ?_⟩
    · intro u hu
      rcases h1 u hu with hp | hc
      · by_cases hut : u = t
        · subst hut; right; simp
        · left; exact List.mem_erase_of_ne hut |>.mpr hp
      · right; simp [hc]
    · intro h; simp at h
    · intro _
      have := h3 hr
      simp [this]
  | scopeDone hp hr =>
    refine ⟨?_, ?_, ?_⟩
    · intro u hu
      rcases h1 u hu with hpu | hc
      · rw [hp] at hpu; simp at hpu
      · right; simp [hc]
    · intro _
      refine ⟨s.trace, rfl, ?_⟩
      intro u hu
      rcases h1 u hu with hpu | hc
      · rw [hp] at hpu; simp at hpu
      · exact hc
    · intro h; simp at h

lemma scInv_reaches {tasks : List Nat} {s : ScState}
    (h : ScReaches (scInit tasks) s) : ScInv tasks s := by
  induction h with
  | refl => exact scInv_init tasks
  | tail _ hstep ih => exact scInv_step ih hstep

/-! ## The Mutex exclusion model
(`src/shared_ownership/main.rs` lines 117 to 132)

The source comment describes `Mutex` as `exclusive access only`.  The
model interleaves two threads that each lock the mutex, increment the
protected counter (recording the value they observed), and unlock.
Reading or writing the counter is only possible in the locked program
region, so mutual exclusion of those regions is the claimed
exclusive-access property. -/

/-- State of the two-thread mutex counter system: a program counter per
thread (0 = before lock, 1 = locked, 2 = incremented, 3 = done), the
lock owner, the protected counter, and the value each thread observed
when it incremented. -/
structure MxState where
  pc0 : Nat
  pc1 : Nat
  owner : Option (Fin 2)
  value : Nat
  obs0 : Option Nat
  obs1 : Option Nat
deriving DecidableEq, Repr

/-- Initial state: both threads before their lock, counter 0. -/
def mxInit : MxState := ⟨0, 0, none, 0, none, none⟩

/-- Interleaved steps of the two threads.  A thread acquires the lock
only when nobody owns it, and touches the protected value only while
owning the lock. -/
inductive MxStep : MxState → MxState → Prop
  | lock0 (s : MxState) (h : s.pc0 = 0) (ho : s.owner = none) :
      MxStep s { s with pc0 := 1, owner := some 0 }
  | incr0 (s : MxState) (h : s.pc0 = 1) (ho : s.owner = some 0) :
      MxStep s { s with pc0 := 2, value := s.value + 1, obs0 := some s.value }
  | unlock0 (s : MxState) (h : s.pc0 = 2) (ho : s.owner = some 0) :
      MxStep s { s with pc0 := 3, owner := none }
  | lock1 (s : MxState) (h : s.pc1 = 0) (ho : s.owner = none) :
      MxStep s { s with pc1 := 1, owner := some 1 }
  | incr1 (s : MxState) (h : s.pc1 = 1) (ho : s.owner = some 1) :
      MxStep s { s with pc1 := 2, value := s.value + 1, obs1 := some s.value }
  | unlock1 (s : MxState) (h : s.pc1 = 2) (ho : s.owner = some 1) :
      MxStep s { s with pc1 := 3, owner := none }

/-- Reachability in the mutex counter system. -/
def MxReaches : MxState → MxState → Prop := Relation.ReflTransGen MxStep

/-- Thread `i` is inside its locked region (between acquiring and
releasing the lock). -/
def inCritical0 (s : MxState) : Prop := 1 ≤ s.pc0 ∧ s.pc0 ≤ 2

/-- Thread 1 is inside its locked region. -/
def inCritical1 (s : MxState) : Prop := 1 ≤ s.pc1 ∧ s.pc1 ≤ 2

/-- Invariant of the mutex counter system. -/
def MxInv (s : MxState) : Prop :=
  s.pc0 ≤ 3 ∧ s.pc1 ≤ 3
  ∧ (inCritical0 s → s.owner = some 0)
  ∧ (inCritical1 s → s.owner = some 1)
  ∧ s.value = (if 2 ≤ s.pc0 then 1 else 0) + (if 2 ≤ s.pc1 then 1 else 0)
  ∧ (s.pc0 ≤ 1 → s.obs0 = none) ∧ (s.pc1 ≤ 1 → s.obs1 = none)
  ∧ (2 ≤ s.pc0 → s.pc1 ≤ 1 → s.obs0 = some 0)
  ∧ (2 ≤ s.pc1 → s.pc0 ≤ 1 → s.obs1 = some 0)
  ∧ (2 ≤ s.pc0 → 2 ≤ s.pc1 →
      (s.obs0 = some 0 ∧ s.obs1 = some 1) ∨ (s.obs0 = some 1 ∧ s.obs1 = some 0))

lemma mxInv_init : MxInv mxInit := by
  simp [MxInv, mxInit, inCritical0, inCritical1]

lemma mxInv_step {s s' : MxState} (hinv : MxInv s) (hstep : MxStep s s') :
    MxInv s' := by
  obtain ⟨hb0, hb1, hc0, hc1, hv, hn0, hn1, ho0, ho1, hboth⟩ := hinv
  simp only [inCritical0, inCritical1] at hc0 hc1
  cases hstep with
  | lock0 h ho =>
    have hp1 : s.pc1 = 0 ∨ s.pc1 = 3 := by
      by_contra hcon
      have hcrit : 1 ≤ s.pc1 ∧ s.pc1 ≤ 2 := by omega
      exact Option.noConfusion ((hc1 hcrit).symm.trans ho)
    refine ⟨?_, hb1, fun _ => rfl, ?_, ?_, ?_, fun hle => hn1 hle, ?_, ?_, ?_⟩
    · dsimp only; omega
    · intro hcrit
      have h1 : 1 ≤ s.pc1 := hcrit.1
      have h2 : s.pc1 ≤ 2 := hcrit.2
      omega
    · dsimp only
      simp only [h] at hv
      simpa using hv
    · intro _
      exact hn0 (by omega)
    · intro h2
      dsimp only at h2
      omega
    · intro h2 _
      exact ho1 h2 (by omega)
    · intro h2
      dsimp only at h2
      omega
  | incr0 h ho =>
    have hp1 : s.pc1 = 0 ∨ s.pc1 = 3 := by
      by_contra hcon
      have hcrit : 1 ≤ s.pc1 ∧ s.pc1 ≤ 2 := by omega
      have heq := Option.some.inj ((hc1 hcrit).symm.trans ho)
      exact absurd heq (by decide)
    refine ⟨?_, hb1, fun _ => ho, ?_, ?_, ?_, fun hle => hn1 hle, ?_, ?_, ?_⟩
    · dsimp only; omega
    · intro hcrit
      have h1 : 1 ≤ s.pc1 := hcrit.1
      have h2 : s.pc1 ≤ 2 := hcrit.2
      omega
    · dsimp only
      simp only [h] at hv
      rcases hp1 with h1 | h1 <;> rw [h1] at hv ⊢ <;> simp at hv ⊢ <;> omega
    · intro h2
      dsimp only at h2
      omega
    · intro _ hle1
      dsimp only at hle1 ⊢
      have h1 : s.pc1 = 0 := by omega
      rw [h, h1] at hv
      simp at hv
      simp [hv]
    · intro _ hle0
      dsimp only at hle0
      omega
    · intro _ h2
      dsimp only at h2 ⊢
      have h1 : s.pc1 = 3 := by omega
      rw [h, h1] at hv
      simp at hv
      have hobs1 : s.obs1 = some 0 := ho1 (by omega) (by omega)
      right
      exact ⟨by simp [hv], hobs1⟩
  | unlock0 h ho =>
    have hp1 : s.pc1 = 0 ∨ s.pc1 = 3 := by
      by_contra hcon
      have hcrit : 1 ≤ s.pc1 ∧ s.pc1 ≤ 2 := by omega
      have heq := Option.some.inj ((hc1 hcrit).symm.trans ho)
      exact absurd heq (by decide)
    refine ⟨?_, hb1, ?_, ?_, ?_, ?_, fun hle => hn1 hle, ?_, ?_, ?_⟩
    · dsimp only; omega
    · intro hcrit
      have h1 : 1 ≤ (3:Nat) := hcrit.1
      have h2 : (3:Nat) ≤ 2 := hcrit.2
      omega
    · intro hcrit
      have h1 : 1 ≤ s.pc1 := hcrit.1
      have h2 : s.pc1 ≤ 2 := hcrit.2
      omega
    · dsimp only
      simp only [h] at hv
      simpa using hv
    · intro hle
      dsimp only at hle
      omega
    · intro _ hle1
      exact ho0 (by omega) hle1
    · intro _ hle0
      dsimp only at hle0
      omega
    · intro _ h2
      exact hboth (by omega) h2
  | lock1 h ho =>
    have hp0 : s.pc0 = 0 ∨ s.pc0 = 3 := by
      by_contra hcon
      have hcrit : 1 ≤ s.pc0 ∧ s.pc0 ≤ 2 := by omega
      exact Option.noConfusion ((hc0 hcrit).symm.trans ho)
    refine ⟨hb0, ?_, ?_, fun _ => rfl, ?_, fun hle => hn0 hle, ?_, ?_, ?_, ?_⟩
    · dsimp only; omega
    · intro hcrit
      have h1 : 1 ≤ s.pc0 := hcrit.1
      have h2 : s.pc0 ≤ 2 := hcrit.2
      omega
    · dsimp only
      simp only [h] at hv
      simpa using hv
    · intro _
      exact hn1 (by omega)
    · intro h2 _
      exact ho0 h2 (by omega)
    · intro h2
      dsimp only at h2
      omega
    · intro _ h2
      dsimp only at h2
      omega
  | incr1 h ho =>
    have hp0 : s.pc0 = 0 ∨ s.pc0 = 3 := by
      by_contra hcon
      have hcrit : 1 ≤ s.pc0 ∧ s.pc0 ≤ 2 := by omega
      have heq := Option.some.inj ((hc0 hcrit).symm.trans ho)
      exact absurd heq (by decide)
    refine ⟨hb0, ?_, ?_, fun _ => ho, ?_, fun hle => hn0 hle, ?_, ?_, ?_, ?_⟩
    · dsimp only; omega
    · intro hcrit
      have h1 : 1 ≤ s.pc0 := hcrit.1
      have h2 : s.pc0 ≤ 2 := hcrit.2
      omega
    · dsimp only
      simp only [h] at hv
      rcases hp0 with h1 | h1 <;> rw [h1] at hv ⊢ <;> simp at hv ⊢ <;> omega
    · intro h2
      dsimp only at h2
      omega
    · intro h2 hle1
      dsimp only at hle1
      omega
    · intro _ hle0
      dsimp only at hle0 ⊢
      have h1 : s.pc0 = 0 := by omega
      rw [h, h1] at hv
      simp at hv
      simp [hv]
    · intro h2 _
      dsimp only at h2 ⊢
      have h1 : s.pc0 = 3 := by omega
      rw [h, h1] at hv
      simp at hv
      have hobs0 : s.obs0 = some 0 := ho0 (by omega) (by omega)
      left
      exact ⟨hobs0, by simp [hv]⟩
  | unlock1 h ho =>
    have hp0 : s.pc0 = 0 ∨ s.pc0 = 3 := by
      by_contra hcon
      have hcrit : 1 ≤ s.pc0 ∧ s.pc0 ≤ 2 := by omega
      have heq := Option.some.inj ((hc0 hcrit).symm.trans ho)
      exact absurd heq (by decide)
    refine ⟨hb0, ?_, ?_, ?_, ?_, fun hle => hn0 hle, ?_, ?_, ?_, ?_⟩
    · dsimp only; omega
    · intro hcrit
      have h1 : 1 ≤ s.pc0 := hcrit.1
      have h2 : s.pc0 ≤ 2 := hcrit.2
      omega
    · intro hcrit
      have h1 : 1 ≤ (3:Nat) := hcrit.1
      have h2 : (3:Nat) ≤ 2 := hcrit.2
      omega
    · dsimp only
      simp only [h] at hv
      simpa using hv
    · intro hle
      dsimp only at hle
      omega
    · intro h2 hle1
      dsimp only at hle1
      omega
    · intro _ hle0
      exact ho1 (by omega) hle0
    · intro h2 _
      exact hboth h2 (by omega)


lemma mxInv_reaches {s : MxState} (h : MxReaches mxInit s) : MxInv s := by
  induction h with
  | refl => exact mxInv_init
  | tail _ hstep ih => exact mxInv_step ih hstep

/-! ## Thread builder (`src/src/main.rs` lines 99 to 126)

Line 100 states: `std::thread::spawn is a shorthand for
std::thread::Builder::new().spawn().unwrap`, and line 110 notes that
spawn could fail on `resource limits, out of mem`. -/

/-- The platform conditions that decide whether a new OS thread can be
created: whether platform resource limits still allow one more thread,
and whether memory is available for its stack. -/
structure SpawnEnv where
  withinResourceLimits : Bool
  memoryAvailable : Bool
deriving DecidableEq, Repr

/-- A thread builder carrying the configured name and stack size, as
built by `thread::Builder::new().name(..).stack_size(..)`. -/
structure Builder where
  threadName : Option String
  stackSize : Option Nat
deriving DecidableEq, Repr

/-- Model of `thread::Builder::new()`. -/
def Builder.new : Builder := ⟨none, none⟩

/-- Model of the `.name(..)` builder method. -/
def Builder.name (b : Builder) (n : String) : Builder := { b with threadName := some n }

/-- Model of the `.stack_size(..)` builder method. -/
def Builder.stack_size (b : Builder) (n : Nat) : Builder := { b with stackSize := some n }

/-- The builder of the example: name `worker-1`, stack size 4 MB. -/
def workerBuilder : Builder := (Builder.new.name "worker-1").stack_size (4 * 1024 * 1024)

/-- Model of `Builder::spawn`: returns `Err` exactly when the thread
cannot be created because resource limits are exceeded or memory is
exhausted, `Ok` with the join handle otherwise. -/
def Builder.spawn {α : Type} (_ : Builder) (env : SpawnEnv) (c : Comp α) :
    Except String (JoinHandle α) :=
  if env.withinResourceLimits && env.memoryAvailable then Except.ok (RustConc.spawn c)
  else Except.error "failed to spawn thread"

/-- Result of `.unwrap()` on a `Result`: the value, or a panic of the
calling thread. -/
inductive UnwrapRes (α : Type) where
  | value (a : α)
  | panicked
deriving DecidableEq, Repr

/-- Model of `Result::unwrap`. -/
def unwrapExcept {ε α : Type} : Except ε α → UnwrapRes α
  | Except.ok a => UnwrapRes.value a
  | Except.error _ => UnwrapRes.panicked

/-- Model of `thread::spawn` with its failure behavior made explicit:
the builder spawn followed by `unwrap`, per `src/src/main.rs` line 100. -/
def threadSpawnUnwrap {α : Type} (env : SpawnEnv) (c : Comp α) : UnwrapRes (JoinHandle α) :=
  unwrapExcept (Builder.new.spawn env c)

/-! ## Reference counting (`src/shared_ownership/main.rs` lines 32 to 57
and the Rc example at `src/sync_consent/main.rs` lines 24 to 30)

Cloning an `Rc` or `Arc` adds one owner of the same referenced value;
dropping removes one, and the value is freed when the last owner is
dropped.  Only the atomic variant may cross a thread boundary: moving
an `Rc` into `thread::spawn` is rejected by the compiler, per the
comment `Error` at `src/sync_consent/main.rs` line 27. -/

/-- An operation performed on a reference-counted value: cloning one of
its handles, or dropping one of its handles. -/
inductive RcOp where
  | clone
  | drop
deriving DecidableEq, Repr

/-- State of a reference-counted allocation: the current number of
holders and whether the referenced value has been freed. -/
structure RcState where
  holders : Nat
  freed : Bool
deriving DecidableEq, Repr

/-- A freshly created `Rc::new` / `Arc::new`: one holder, value live. -/
def rcNew : RcState := ⟨1, false⟩

/-- Effect of one clone or drop on the allocation: a clone adds a
holder; a drop removes one, freeing the value when it was the last. -/
def rcStep (s : RcState) : RcOp → RcState
  | RcOp.clone => ⟨s.holders + 1, s.freed⟩
  | RcOp.drop => ⟨s.holders - 1, s.freed || decide (s.holders - 1 = 0)⟩

/-- Running a sequence of clones and drops from a fresh allocation. -/
def rcRun (ops : List RcOp) : RcState := ops.foldl rcStep rcNew

/-- A sequence of operations is well formed when every operation acts
on a live handle: at least one holder exists before each step. -/
def rcWF : Nat → List RcOp → Prop
  | _, [] => True
  | h, op :: ops =>
    1 ≤ h ∧ rcWF (match op with | RcOp.clone => h + 1 | RcOp.drop => h - 1) ops

/-- Number of clones in an operation sequence. -/
def rcClones : List RcOp → Nat
  | [] => 0
  | RcOp.clone :: ops => rcClones ops + 1
  | RcOp.drop :: ops => rcClones ops

/-- Number of drops in an operation sequence. -/
def rcDrops : List RcOp → Nat
  | [] => 0
  | RcOp.clone :: ops => rcDrops ops
  | RcOp.drop :: ops => rcDrops ops + 1

/-- Thread-transfer capability of a pointer kind: `true` when a value
of this kind may be moved into a spawned thread (the `Send` marker). -/
structure PtrKind where
  sendToOtherThread : Bool
deriving DecidableEq, Repr

/-- `std::rc::Rc`, the single-threaded reference-counted pointer
(`src/shared_ownership/main.rs` line 34). -/
def rcKind : PtrKind := ⟨false⟩

/-- `std::sync::Arc`, the atomically reference-counted pointer for
multi-threaded use (`src/shared_ownership/main.rs` line 36). -/
def arcKind : PtrKind := ⟨true⟩

/-- Verdict of the compiler on moving a value into a spawned thread. -/
inductive CompileCheck where
  | accepted
  | rejected
deriving DecidableEq, Repr

/-- Model of the compile-time check on `thread::spawn(move || ...)`:
the moved value must be transferable to another thread. -/
def moveIntoSpawnCheck (k : PtrKind) : CompileCheck :=
  if k.sendToOtherThread then CompileCheck.accepted else CompileCheck.rejected

/-! ## Observable effects of the snippets

Per the spec, each snippet is self-contained example code whose only
observable effect is console output.  Every print of every snippet in
the three source files is collected below; effects other than console
output would use the other constructors, and none occurs. -/

/-- An externally observable effect a snippet could perform. -/
inductive Effect where
  | consoleLine (s : String)
  | fileAccess (path : String)
  | networkAccess (addr : String)
  | persistedWrite (key : String)
deriving DecidableEq, Repr

/-- Whether an effect is console output. -/
def Effect.isConsole : Effect → Bool
  | Effect.consoleLine _ => true
  | _ => false

/-- Console lines of the thread body `f` at `src/src/main.rs` lines 13
to 18, for a given run-specific thread id. -/
def fEffects (tid : String) : List Effect :=
  [Effect.consoleLine "Hello from another thread!",
   Effect.consoleLine ("This is my thread id: " ++ tid)]

/-- The possible effects of every snippet of the repositorys three
source files, one entry per snippet, in source order.  Each list
collects the `println!`, `dbg!`, `log::error!` and panic-message text
the snippet can emit; snippets that print nothing (including the ones
the compiler rejects) have an empty list.  Run-specific output is
parametrized: the two spawned thread ids, the spawn error shown by
`log::error!`, and the unspecified value printed by the
`get_unchecked` snippet. -/
def snippetEffects (tid1 tid2 spawnErr unchecked : String) : List (List Effect) :=
  [ -- src/src/main.rs lines 6 to 18: two spawns plus main
    Effect.consoleLine "Hello from the main thread." :: (fEffects tid1 ++ fEffects tid2),
    -- src/src/main.rs lines 24 to 32: join handles
    Effect.consoleLine "Hello from the main thread." :: (fEffects tid1 ++ fEffects tid2),
    -- src/src/main.rs lines 39 to 42: panicking thread (panic message on stderr)
    [Effect.consoleLine "Oops - panicked again"],
    -- src/src/main.rs lines 49 to 57: moved vector
    [Effect.consoleLine "1", Effect.consoleLine "2", Effect.consoleLine "3"],
    -- src/src/main.rs lines 62 to 76: scoped threads /1
    [Effect.consoleLine "length: 3", Effect.consoleLine "1",
     Effect.consoleLine "2", Effect.consoleLine "3"],
    -- src/src/main.rs lines 83 to 96: scoped threads /2, rejected by the
    -- borrow checker, no print in any case
    [],
    -- src/src/main.rs lines 99 to 126: thread Builder; the closures print
    -- nothing and the error arm logs the spawn failure to the console
    [Effect.consoleLine ("Thread spawn failed: " ++ spawnErr)],
    -- src/shared_ownership/main.rs lines 4 to 18: static array and the
    -- non-leaked average thread (rejected for its lifetime), no print
    [],
    -- src/shared_ownership/main.rs lines 21 to 30: leaked-slice average,
    -- computes and joins without printing
    [],
    -- src/shared_ownership/main.rs lines 32 to 45: Rc/Arc clones
    [Effect.consoleLine "a = [1, 2, 3]", Effect.consoleLine "b = [1, 2, 3]"],
    -- src/shared_ownership/main.rs lines 48 to 57: Arc with shadowing
    [Effect.consoleLine "a = [1, 2, 3]", Effect.consoleLine "a = [1, 2, 3]"],
    -- src/shared_ownership/main.rs lines 60 to 64: unsafe get_unchecked,
    -- printing an unspecified run-dependent value
    [Effect.consoleLine unchecked],
    -- src/shared_ownership/main.rs lines 76 to 80: Cell
    [Effect.consoleLine "2"],
    -- src/shared_ownership/main.rs lines 90 to 94: RefCell
    [Effect.consoleLine "2"],
    -- src/shared_ownership/main.rs lines 104 to 115: RwLock
    [Effect.consoleLine "Read: 10", Effect.consoleLine "Final: 15"],
    -- src/shared_ownership/main.rs lines 125 to 132: Mutex counter
    [Effect.consoleLine "2"],
    -- src/shared_ownership/main.rs lines 142 to 149: atomic counter
    [Effect.consoleLine "Counter: 2"],
    -- src/shared_ownership/main.rs lines 156 to 165: UnsafeCell-backed
    -- Cell definition, no executable statement
    [],
    -- src/shared_ownership/main.rs lines 177 to 182: unsafe Send/Sync
    -- impls for X, no executable statement
    [],
    -- src/shared_ownership/main.rs lines 189 to 194: Rc moved into spawn,
    -- rejected by the compiler; its dbg would print a = 123
    [Effect.consoleLine "a = 123"],
    -- src/shared_ownership/main.rs lines 199 to 204: PhantomData opt-out,
    -- no executable statement
    [],
    -- src/sync_consent/main.rs lines 13 to 18: unsafe Send/Sync impls
    -- for X, no executable statement
    [],
    -- src/sync_consent/main.rs lines 25 to 30: Rc moved into spawn,
    -- rejected by the compiler; its dbg would print a = 123
    [Effect.consoleLine "a = 123"],
    -- src/sync_consent/main.rs lines 35 to 40: PhantomData opt-out, no
    -- executable statement
    [] ]

/-! ## The leaked-slice average
(`src/shared_ownership/main.rs` lines 20 to 30) -/

/-- The boxed slice `Vec::from_iter(0..=1000)`: the numbers 0 to 1000
inclusive. -/
def leakedNumbers : List Nat := List.range 1001

/-- The spawned closure of the leaked-slice example: it computes
`sum / len` over the leaked slice and returns it. -/
def averageThreadBody : Comp Nat :=
  let len := leakedNumbers.length
  let sum := leakedNumbers.sum
  Comp.ret (sum / len)

/-- `let average = t.join().unwrap()` of the example. -/
def averageResult : Except String Nat := (spawn averageThreadBody).join

/-! ## Supporting lemmas -/

lemma rcRun_foldl (ops : List RcOp) (s : RcState) (hwf : rcWF s.holders ops)
    (hfr : s.freed = decide (s.holders = 0)) :
    (ops.foldl rcStep s).freed = decide ((ops.foldl rcStep s).holders = 0)
    ∧ (ops.foldl rcStep s).holders + rcDrops ops = s.holders + rcClones ops := by
  induction ops generalizing s with
  | nil =>
    refine ⟨hfr, ?_⟩
    simp [rcDrops, rcClones]
  | cons op ops ih =>
    obtain ⟨hpos, hwf2⟩ := hwf
    have hfalse : s.freed = false := by
      rw [hfr]
      simp
      omega
    cases op with
    | clone =>
      have h1 : (rcStep s RcOp.clone).freed = decide ((rcStep s RcOp.clone).holders = 0) := by
        simp [rcStep, hfalse]
      have h2 : (rcStep s RcOp.clone).holders = s.holders + 1 := rfl
      have := ih (rcStep s RcOp.clone) (by simpa [rcStep] using hwf2) h1
      refine ⟨this.1, ?_⟩
      have hc := this.2
      rw [h2] at hc
      simp only [List.foldl_cons, rcDrops, rcClones]
      omega
    | drop =>
      have h1 : (rcStep s RcOp.drop).freed = decide ((rcStep s RcOp.drop).holders = 0) := by
        simp [rcStep, hfalse]
      have h2 : (rcStep s RcOp.drop).holders = s.holders - 1 := rfl
      have := ih (rcStep s RcOp.drop) (by simpa [rcStep] using hwf2) h1
      refine ⟨this.1, ?_⟩
      have hc := this.2
      rw [h2] at hc
      simp only [List.foldl_cons, rcDrops, rcClones]
      omega

/-! ## The claims -/

/-- C1: joining a spawned thread returns `Err` exactly when its closure
panicked and `Ok` with the returned value otherwise; in particular the
closure panicking with `Oops - panicked again` joins to `Err`, and a
normally returning closure joins to `Ok`. -/
theorem C1_join_reflects_panic :
    (∀ (c : Comp Nat), (spawn c).join.isOk = !c.panics)
    ∧ (∀ (c : Comp Nat) (m : String), (spawn c).join = Except.error m ↔ c = Comp.panicked m)
    ∧ (∀ (c : Comp Nat) (a : Nat), (spawn c).join = Except.ok a ↔ c = Comp.ret a)
    ∧ (spawn panickingExampleBody).join = Except.error "Oops - panicked again"
    ∧ (spawn fBody).join = Except.ok () := by
  refine ⟨?_, ?_, ?_, rfl, rfl⟩
  · intro c
    cases c <;> rfl
  · intro c m
    cases c <;> simp [spawn, JoinHandle.join]
  · intro c a
    cases c <;> simp [spawn, JoinHandle.join]

/-- C2: exclusivity at runtime is signalled in two distinct ways: a
`RefCell` borrow operation panics (and never blocks) when the requested
borrow would coexist with a conflicting borrow, while the `RwLock` and
`Mutex` operations block (and never panic) when the access cannot be
granted. -/
theorem C2_refcell_panics_locks_block :
    (∀ s, refcellBorrowMut s = AcqRes.panicked ↔ s ≠ BorrowState.free)
    ∧ (∀ s, refcellBorrow s = AcqRes.panicked ↔ s = BorrowState.exclusive)
    ∧ (∀ s, refcellBorrow s ≠ AcqRes.blocked)
    ∧ (∀ s, refcellBorrowMut s ≠ AcqRes.blocked)
    ∧ (∀ s, rwlockRead s = AcqRes.blocked ↔ s = RwState.writeLocked)
    ∧ (∀ s, rwlockWrite s = AcqRes.blocked ↔ s ≠ RwState.unlocked)
    ∧ (∀ b, mutexLock b = AcqRes.blocked ↔ b = true)
    ∧ (∀ s, rwlockRead s ≠ AcqRes.panicked)
    ∧ (∀ s, rwlockWrite s ≠ AcqRes.panicked)
    ∧ (∀ b, mutexLock b ≠ AcqRes.panicked) := by
  refine ⟨?_, ?_, ?_, ?_, ?_, ?_, ?_, ?_, ?_, ?_⟩ <;> intro s <;>
    cases s <;> simp [refcellBorrow, refcellBorrowMut, rwlockRead, rwlockWrite, mutexLock]

/-- C7: every snippet of the repository has console output as its only
observable effect: each entry of the effect table, which covers every
snippet of the three source files, consists purely of console lines,
whatever the run-specific thread ids, spawn error and unspecified
printed value are. -/
theorem C7_console_only (tid1 tid2 spawnErr unchecked : String) :
    ((snippetEffects tid1 tid2 spawnErr unchecked).all
      (fun es => es.all Effect.isConsole)) = true := by
  simp [snippetEffects, fEffects, Effect.isConsole]

/-- C8: evaluating the `RwLock` example as written, the write guard is
still held at the final read, so the run blocks after printing only
`Read: 10`; releasing the guard before the final read (the intended
program) finishes with `Read: 10` then `Final: 15`. -/
theorem C8_rwlock_example_blocks :
    rwlockExampleMain = RunResult.stuck ["Read: 10"]
    ∧ rwlockExampleMainGuardDropped
      = RunResult.finished ["Read: 10", "Final: 15"] 15 := by
  constructor <;> rfl

/-- C9: both counter examples end at 2: the Mutex counter performs two
locked increments of 1 from 0 and prints 2, and the atomic counter
performs two `fetch_add(1)` calls from 0 and loads 2. -/
theorem C9_counters_reach_two :
    mutexCounterMain = RunResult.finished ["2"] 2
    ∧ atomicCounterMain = RunResult.finished ["Counter: 2"] 2 := by
  constructor <;> rfl

/-- C10: in the leaked-slice example the boxed slice holds 0 to 1000,
so its length 1001 is nonzero, its sum is 500500, and the joined
average is `Ok 500`. -/
theorem C10_leaked_average :
    leakedNumbers.length = 1001
    ∧ leakedNumbers.length ≠ 0
    ∧ leakedNumbers.sum = 500500
    ∧ averageResult = Except.ok 500 := by
  refine ⟨by decide, by decide, by decide, by rfl⟩

/-- C3: in every run of `thread::scope` that returns, all spawned tasks
have completed before the scope returned: the trace ends with the scope
return and the completion of every spawned task precedes it.  This is
the guarantee that lets the closures borrow the parent-owned vector. -/
theorem C3_scope_joins_before_return (tasks : List Nat) (s : ScState)
    (h : ScReaches (scInit tasks) s) (hret : s.returned = true) :
    ∃ tr, s.trace = tr ++ [SEvent.scopeReturn]
      ∧ ∀ t ∈ tasks, SEvent.completed t ∈ tr :=
  (scInv_reaches h).2.1 hret

/-- Witness for C3: a concrete run of a scope with the two spawned
tasks of the example, completed and then returned. -/
theorem C3_scope_joins_before_return_witness :
    ∃ tr, ([SEvent.completed 0, SEvent.completed 1, SEvent.scopeReturn] : List SEvent)
        = tr ++ [SEvent.scopeReturn]
      ∧ ∀ t ∈ [0, 1], SEvent.completed t ∈ tr := by
  have hreach : ScReaches (scInit [0, 1])
      ⟨[], true, [SEvent.completed 0, SEvent.completed 1, SEvent.scopeReturn]⟩ := by
    refine Relation.ReflTransGen.head (ScStep.finishTask _ 0 (by decide) rfl) ?_
    refine Relation.ReflTransGen.head (ScStep.finishTask _ 1 (by decide) rfl) ?_
    exact Relation.ReflTransGen.single (ScStep.scopeDone _ (by decide) rfl)
  exact C3_scope_joins_before_return [0, 1] _ hreach rfl

/-- C4: in every reachable state of the interleaved mutex counter, the
two threads are never both inside their locked region (exclusive access
while locked), and when both have finished, the counter is 2 and one
increment observed 0 while the other observed 1: each locked increment
saw the value the previous one left. -/
theorem C4_mutex_exclusive_access (s : MxState) (h : MxReaches mxInit s) :
    ¬ (inCritical0 s ∧ inCritical1 s)
    ∧ (s.pc0 = 3 → s.pc1 = 3 → s.value = 2
        ∧ ((s.obs0 = some 0 ∧ s.obs1 = some 1)
            ∨ (s.obs0 = some 1 ∧ s.obs1 = some 0))) := by
  obtain ⟨hb0, hb1, hc0, hc1, hv, hn0, hn1, ho0, ho1, hboth⟩ := mxInv_reaches h
  constructor
  · rintro ⟨hcr0, hcr1⟩
    have heq := (hc0 hcr0).symm.trans (hc1 hcr1)
    exact absurd (Option.some.inj heq) (by decide)
  · intro h0 h1
    refine ⟨?_, hboth (by omega) (by omega)⟩
    rw [hv, h0, h1]
    norm_num

/-- Witness for C4: the sequential schedule of the example, thread 0
locking, incrementing and unlocking before thread 1 does the same. -/
theorem C4_mutex_exclusive_access_witness :
    ¬ (inCritical0 ⟨3, 3, none, 2, some 0, some 1⟩
        ∧ inCritical1 ⟨3, 3, none, 2, some 0, some 1⟩)
    ∧ ((3:Nat) = 3 → (3:Nat) = 3 → (⟨3, 3, none, 2, some 0, some 1⟩ : MxState).value = 2
        ∧ (((⟨3, 3, none, 2, some 0, some 1⟩ : MxState).obs0 = some 0
              ∧ (⟨3, 3, none, 2, some 0, some 1⟩ : MxState).obs1 = some 1)
            ∨ ((⟨3, 3, none, 2, some 0, some 1⟩ : MxState).obs0 = some 1
              ∧ (⟨3, 3, none, 2, some 0, some 1⟩ : MxState).obs1 = some 0))) := by
  have hreach : MxReaches mxInit ⟨3, 3, none, 2, some 0, some 1⟩ := by
    refine Relation.ReflTransGen.head (MxStep.lock0 _ rfl rfl) ?_
    refine Relation.ReflTransGen.head (MxStep.incr0 _ rfl rfl) ?_
    refine Relation.ReflTransGen.head (MxStep.unlock0 _ rfl rfl) ?_
    refine Relation.ReflTransGen.head (MxStep.lock1 _ rfl rfl) ?_
    refine Relation.ReflTransGen.head (MxStep.incr1 _ rfl rfl) ?_
    exact Relation.ReflTransGen.single (MxStep.unlock1 _ rfl rfl)
  exact C4_mutex_exclusive_access _ hreach

/-- C5: the builder spawn returns `Err` exactly when the platform
cannot create the thread (resource limits exceeded or out of memory)
and `Ok` with the handle of the spawned closure otherwise, and
`thread::spawn` is the builder spawn followed by `unwrap`, panicking
exactly where the builder returns `Err`. -/
theorem C5_builder_spawn_result (b : Builder) (env : SpawnEnv) (c : Comp Nat) :
    ((∃ e, b.spawn env c = Except.error e)
        ↔ (env.withinResourceLimits = false ∨ env.memoryAvailable = false))
    ∧ (b.spawn env c = Except.ok (spawn c)
        ↔ (env.withinResourceLimits = true ∧ env.memoryAvailable = true))
    ∧ threadSpawnUnwrap env c = unwrapExcept (Builder.new.spawn env c)
    ∧ (threadSpawnUnwrap env c = UnwrapRes.panicked
        ↔ ∃ e, Builder.new.spawn env c = Except.error e) := by
  obtain ⟨rl, ma⟩ := env
  cases rl <;> cases ma <;>
    simp [Builder.spawn, threadSpawnUnwrap, unwrapExcept]

/-- C6: cloning an `Rc` or `Arc` adds one holder of the same value, the
value is freed exactly when the holder count reaches zero (the last
holder is dropped), and only the atomic variant may move into a
spawned thread: the compile check rejects `Rc` and accepts `Arc`. -/
theorem C6_refcount_semantics (ops : List RcOp) (hwf : rcWF 1 ops) :
    ((rcRun ops).freed = true ↔ (rcRun ops).holders = 0)
    ∧ (rcRun ops).holders + rcDrops ops = 1 + rcClones ops
    ∧ (∀ s : RcState, (rcStep s RcOp.clone).holders = s.holders + 1)
    ∧ moveIntoSpawnCheck rcKind = CompileCheck.rejected
    ∧ moveIntoSpawnCheck arcKind = CompileCheck.accepted := by
  have hmain := rcRun_foldl ops rcNew hwf (by decide)
  refine ⟨?_, hmain.2, fun s => rfl, rfl, rfl⟩
  have h1 := hmain.1
  simp only [rcRun]
  rw [h1]
  simp

/-- Witness for C6: one clone (two holders) followed by two drops; the
value is freed exactly at the second drop. -/
theorem C6_refcount_semantics_witness :
    ((rcRun [RcOp.clone, RcOp.drop, RcOp.drop]).freed = true
        ↔ (rcRun [RcOp.clone, RcOp.drop, RcOp.drop]).holders = 0)
    ∧ (rcRun [RcOp.clone, RcOp.drop, RcOp.drop]).holders
        + rcDrops [RcOp.clone, RcOp.drop, RcOp.drop]
      = 1 + rcClones [RcOp.clone, RcOp.drop, RcOp.drop]
    ∧ (∀ s : RcState, (rcStep s RcOp.clone).holders = s.holders + 1)
    ∧ moveIntoSpawnCheck rcKind = CompileCheck.rejected
    ∧ moveIntoSpawnCheck arcKind = CompileCheck.accepted :=
  C6_refcount_semantics [RcOp.clone, RcOp.drop, RcOp.drop]
    (by simp [rcWF])

end RustConc
